import Mathlib

/-!
Verification model of the plexer event router.

The definitions below are a shallow embedding of the TypeScript sources:
  * `src/constants.ts` — event-type tables,
  * `src/config.ts` / `src/consumers.ts` — consumer registry,
  * `src/auth.ts` — auth-header construction,
  * `src/server.ts` — `shouldForward`, the `/events` handler and `processEvent`,
  * `src/delivery.ts` — `saveFailedEvent`, `initDelivery`, `retryFailedEvents`,
    `batchAppendEvents` and the in-memory metrics counters.

Effectful code is modelled by explicit state passing: the data directory is a
value (the lines of `failed_forwards.jsonl` plus the `processing.*.jsonl`
files), clocks, jitter, lock acquisition, fetch responses and append success
are oracle parameters.  Timestamps are milliseconds since the epoch as `Nat`
(the code stores them as ISO-8601 strings and parses them back to epoch
milliseconds; an unparsable date, `NaN` in the code, is `Option.none`).
-/

namespace Plexer

/-! ## JSON values and `JSON.stringify`

JavaScript values that survive `JSON.stringify`.  Numbers are modelled as
integers (float formatting is irrelevant to every claim).  Object fields keep
insertion order, as `JSON.stringify` does. -/

inductive Json where
  | null
  | boolean (b : Bool)
  | num (n : Int)
  | str (s : String)
  | arr (elems : List Json)
  | obj (fields : List (String × Json))
deriving Repr

/-- `JSON.stringify` escaping of one character inside a string literal.
Control characters other than the common three are left as-is; no claim
depends on the escape table. -/
def jsonEscapeChar (c : Char) : String :=
  if c = '"' then "\\\""
  else if c = '\\' then "\\\\"
  else if c = '\n' then "\\n"
  else if c = '\r' then "\\r"
  else if c = '\t' then "\\t"
  else String.singleton c

/-- `JSON.stringify` of a JS string. -/
def jsonQuote (s : String) : String :=
  "\"" ++ String.join (s.data.map jsonEscapeChar) ++ "\""

/-- `JSON.stringify` of a JS value. -/
def serializeJson : Json → String
  | .null => "null"
  | .boolean b => if b then "true" else "false"
  | .num n => toString n
  | .str s => jsonQuote s
  | .arr xs =>
      "[" ++ String.intercalate "," (xs.attach.map (fun x => serializeJson x.1)) ++ "]"
  | .obj fs =>
      "\x7b" ++
        String.intercalate ","
          (fs.attach.map (fun kv => jsonQuote kv.1.1 ++ ":" ++ serializeJson kv.1.2)) ++
      "\x7d"
termination_by j => sizeOf j
decreasing_by
  · have := List.sizeOf_lt_of_mem x.2
    simp only [Json.arr.sizeOf_spec]
    omega
  · have h1 := List.sizeOf_lt_of_mem kv.2
    have h2 : sizeOf kv.1.2 ≤ sizeOf kv.1 := by
      obtain ⟨a, b⟩ := kv.1
      simp
    simp only [Json.obj.sizeOf_spec]
    omega

/-- Top-level key list of a JSON object (used to state "no injected keys"). -/
def jsonObjKeys : Json → List String
  | .obj fs => fs.map (fun kv => kv.1)
  | _ => []

/-! ## `src/constants.ts` -/

def EVENT_KNOWLEDGE_OBSERVATORY_PUBLISHED_V1 : String :=
  "knowledge.observatory.published.v1"

def EVENT_INTEGRITY_SUMMARY_PUBLISHED_V1 : String :=
  "integrity.summary.published.v1"

def EVENT_INSIGHTS_DAILY_PUBLISHED : String := "insights.daily.published"

def BROADCAST_EVENTS : List String :=
  [EVENT_KNOWLEDGE_OBSERVATORY_PUBLISHED_V1, EVENT_INTEGRITY_SUMMARY_PUBLISHED_V1]

def BEST_EFFORT_EVENTS : List String :=
  [EVENT_INTEGRITY_SUMMARY_PUBLISHED_V1]

/-! ## `src/config.ts` and `src/consumers.ts`

`getEnv` in `config.ts` yields either a trimmed non-empty string or
`undefined`; consumer URLs and tokens are therefore `Option String`.
Only the fields the consumer registry reads are modelled. -/

structure Config where
  heimgeistUrl : Option String
  leitstandUrl : Option String
  hauskiUrl : Option String
  chronikUrl : Option String
  heimgeistToken : Option String
  leitstandToken : Option String
  hauskiToken : Option String
  chronikToken : Option String

structure Consumer where
  key : String
  label : String
  url : Option String
  token : Option String
  authKind : String

def CONSUMERS (cfg : Config) : List Consumer :=
  [ { key := "heimgeist", label := "Heimgeist", url := cfg.heimgeistUrl,
      token := cfg.heimgeistToken, authKind := "x-auth" },
    { key := "leitstand", label := "Leitstand", url := cfg.leitstandUrl,
      token := cfg.leitstandToken, authKind := "bearer" },
    { key := "hauski", label := "hausKI", url := cfg.hauskiUrl,
      token := cfg.hauskiToken, authKind := "bearer" },
    { key := "chronik", label := "Chronik", url := cfg.chronikUrl,
      token := cfg.chronikToken, authKind := "x-auth" } ]

/-! ## `src/auth.ts` -/

def getAuthHeaders (authKind token _consumerKey : String) :
    List (String × String) :=
  if authKind = "x-auth" then [("X-Auth", token)]
  else [("Authorization", "Bearer " ++ token)]

/-! ## `src/types.ts` -/

/-- A payload value as seen by `JSON.stringify`: either a serializable JSON
value or a value on which `JSON.stringify` throws (cyclic object). -/
inductive PayloadVal where
  | json (j : Json)
  | cyclic
deriving Repr

/-- `PlexerEvent` from `types.ts`.  `payload = none` models the JS value
`undefined` (the field being absent). -/
structure PlexerEvent where
  type : String
  source : String
  payload : Option PayloadVal
deriving Repr

/-- JS `String.prototype.trim()`: strip whitespace from both ends
(kernel-computable model over the character list). -/
def jsTrim (s : String) : String :=
  ⟨((s.data.dropWhile Char.isWhitespace).reverse.dropWhile
      Char.isWhitespace).reverse⟩

/-- JS `String.prototype.toLowerCase()` (ASCII model). -/
def jsToLower (s : String) : String :=
  ⟨s.data.map Char.toLower⟩

/-! ## `src/server.ts` — routing and fanout -/

/-- `shouldForward` (server.ts lines 44-49). -/
def shouldForward (eventType consumerKey : String) : Bool :=
  if BROADCAST_EVENTS.contains eventType then true
  else consumerKey == "heimgeist"

/-- `tryJson` applied to a defined (non-`undefined`) value:
`some` of the stringified text, or `none` when `JSON.stringify` throws. -/
def tryJson : PayloadVal → Option String
  | .json j => some (serializeJson j)
  | .cyclic => none

/-- `processEvent` line 235: `payload === undefined ? null : payload`. -/
def effectivePayload : Option PayloadVal → PayloadVal
  | none => .json .null
  | some v => v

/-- The forwarded body built in `processEvent` line 279 by string
concatenation from the normalized fields and the pre-serialized payload. -/
def serializedEventBody (type source payloadJson : String) : String :=
  "\x7b\"type\":" ++ jsonQuote type ++ ",\"source\":" ++ jsonQuote source ++
    ",\"payload\":" ++ payloadJson ++ "\x7d"

/-- One outbound POST issued by the fanout loop. -/
structure Post where
  consumerKey : String
  label : String
  url : String
  headers : List (String × String)
  body : String
deriving Repr

/-- Headers built in `processEvent` lines 291-296: `Content-Type` plus auth
headers when the token is truthy (a non-empty string). -/
def forwardHeaders (c : Consumer) : List (String × String) :=
  ("Content-Type", "application/json") ::
    (match c.token with
     | some t => if t.isEmpty then [] else getAuthHeaders c.authKind t c.key
     | none => [])

/-- One iteration of the fanout loop (lines 283-302): skip a consumer with
no URL, skip when `shouldForward` is false, otherwise issue the POST. -/
def forwardPost (eventType body : String) (c : Consumer) : Option Post :=
  match c.url with
  | none => none
  | some u =>
      if shouldForward eventType c.key then
        some { consumerKey := c.key, label := c.label, url := u,
               headers := forwardHeaders c, body := body }
      else none

/-- The fanout of `processEvent` (lines 272-302): on serialization failure
return with no fetches; otherwise one POST per consumer that has a URL and
passes `shouldForward`, in registry order. -/
def processEventPosts (consumers : List Consumer) (ev : PlexerEvent) :
    List Post :=
  match tryJson (effectivePayload ev.payload) with
  | none => []
  | some payloadJson =>
      consumers.filterMap
        (forwardPost ev.type (serializedEventBody ev.type ev.source payloadJson))

/-- What `processEvent` does with a failed forward (non-2xx response or
fetch exception), lines 338-355 and 367-384. -/
inductive FailureDisposition where
  | bestEffortWarn (logKind : String)
  | queueCritical
deriving Repr, DecidableEq

/-- The reliability-policy branch shared by the non-2xx handler and the
exception handler of `processEvent`. -/
def disposeForwardFailure (eventType consumerKey : String) :
    FailureDisposition :=
  let isCriticalConsumer := consumerKey == "heimgeist"
  let isBestEffortEvent := BEST_EFFORT_EVENTS.contains eventType
  if isBestEffortEvent || !isCriticalConsumer then
    .bestEffortWarn "best_effort_forward_failed"
  else .queueCritical

/-! ## Ingress (`POST /events`, server.ts lines 122-194) -/

/-- Modelled from the spec: the vendored `event.envelope.v1.schema.json` is
not under `src/`; per spec §3/§4.1 the envelope requires a non-empty `type`,
a non-empty `source`, and a present `payload` (`null` is allowed,
`undefined`/missing is rejected). -/
def validateEventEnvelope (ev : PlexerEvent) : Bool :=
  !ev.type.isEmpty && !ev.source.isEmpty && ev.payload.isSome

inductive IngressResult where
  | rejected (status : Nat) (message : String)
  | accepted (ev : PlexerEvent)
deriving Repr

def MAX_STRING_LENGTH : Nat := 256

/-- The handler's serialization pre-check (server.ts lines 177-184):
`JSON.stringify(payload)` throws only on a cyclic value (stringifying the
JS value `undefined` returns `undefined` without throwing). -/
def payloadStringifyThrows : Option PayloadVal → Bool
  | some .cyclic => true
  | _ => false

/-- The `/events` handler after the `typeof` checks (which are type-level
here): normalize, validate the envelope, check lengths, pre-check payload
serializability, then hand the normalized event to `processEvent` and answer
202. -/
def postEvents (type source : String) (payload : Option PayloadVal) :
    IngressResult :=
  let normalizedType := jsToLower (jsTrim type)
  let normalizedSource := jsTrim source
  let normalizedEvent : PlexerEvent :=
    { type := normalizedType, source := normalizedSource, payload := payload }
  if !validateEventEnvelope normalizedEvent then
    .rejected 400 "Invalid event envelope"
  else if normalizedType.length > MAX_STRING_LENGTH ||
      normalizedSource.length > MAX_STRING_LENGTH then
    .rejected 400 "Event must include non-empty type & source and payload"
  else if payloadStringifyThrows payload then
    .rejected 400 "Payload must be JSON-serializable"
  else .accepted normalizedEvent

/-! ## `src/delivery.ts` — data model

A queue entry (`FailedEvent` in `types.ts`).  `lastAttempt` and
`nextAttempt` are epoch milliseconds; `nextAttempt = none` models a stored
date string on which `new Date(...).getTime()` is `NaN`. -/

structure FailedEvent where
  consumerKey : String
  event : PlexerEvent
  retryCount : Nat
  lastAttempt : Nat
  nextAttempt : Option Nat
  error : String
deriving Repr

/-- One line of a `.jsonl` file in the data directory, classified the way
both the metrics scan and the retry loop classify it:
blank (`line.trim()` empty, skipped), non-blank but not JSON
(`JSON.parse` throws), or a parsed entry.  Every writer in the repository
appends whole newline-terminated lines, so a file is a list of lines; a
line is carried verbatim (byte-preserving) whatever its class. -/
inductive QueueLine where
  | blank (s : String)
  | junk (s : String)
  | entry (e : FailedEvent)
deriving Repr

/-- The in-memory module state of `delivery.ts` (its top-level `let`s). -/
structure DeliveryState where
  lastError : Option String
  lastRetryAt : Option Nat
  failedCount : Nat
  retryableNowCount : Nat
  nextDueAt : Option Nat
deriving Repr

/-- `JSON.stringify(entry.event)` — the body of a retry POST
(delivery.ts line 353).  Keys come out in insertion order
(`type`, `source`, `payload`); an `undefined` payload is omitted;
a cyclic payload would throw. -/
def stringifyEvent (ev : PlexerEvent) : Option String :=
  match ev.payload with
  | some .cyclic => none
  | some (.json j) =>
      some (serializeJson (.obj
        [("type", .str ev.type), ("source", .str ev.source), ("payload", j)]))
  | none =>
      some (serializeJson (.obj
        [("type", .str ev.type), ("source", .str ev.source)]))

/-! ## `saveFailedEvent` (delivery.ts lines 191-248) -/

/-- Modelled from the spec: the vendored `failed_event.v1.schema.json` is not
under `src/`.  Per spec §3 an entry carries a consumer key, the full
validated envelope (so a non-empty `type` and `source` within the length
bound, and a present `payload`), a non-negative retry count, timestamps and
an error string; the structural parts are enforced by the types here. -/
def validateFailedEvent (fe : FailedEvent) : Bool :=
  !fe.event.type.isEmpty && fe.event.type.length ≤ MAX_STRING_LENGTH &&
    !fe.event.source.isEmpty && fe.event.source.length ≤ MAX_STRING_LENGTH &&
    fe.event.payload.isSome

/-- The entry built at the top of `saveFailedEvent` (lines 202-212):
`retryCount = 0`, `lastAttempt = now`, `nextAttempt = now + 30s + jitter`
with `jitter = Math.random() * 10000`. -/
def mkFailedEvent (event : PlexerEvent) (consumerKey error : String)
    (now jitter : Nat) : FailedEvent :=
  { consumerKey := consumerKey, event := event, retryCount := 0,
    lastAttempt := now, nextAttempt := some (now + 30000 + jitter),
    error := error }

/-- Lines 239-241: lower `nextDueAt` if the new entry is due sooner. -/
def updateNextDue (cur : Option Nat) (n : Nat) : Option Nat :=
  match cur with
  | none => some n
  | some c => if n < c then some n else some c

inductive SaveOutcome where
  | saved
  | droppedInvalid
  | droppedLockFail
  | droppedAppendFail
  | threw
deriving Repr, DecidableEq

structure SaveResult where
  log : List QueueLine
  st : DeliveryState
  outcome : SaveOutcome

/-- `saveFailedEvent`: build the entry, validate it (drop with an error log
if invalid), serialize it (`JSON.stringify` throws on a cyclic payload,
rejecting the promise before anything is written), then under the advisory
lock append exactly one newline-terminated line and update the counters.
Lock-acquisition or append failure is caught: the event is dropped and the
drop is error-logged (`[Reliability] Dropped event due to lock failure`);
the state is left untouched. -/
def saveFailedEvent (st : DeliveryState) (log : List QueueLine)
    (event : PlexerEvent) (consumerKey error : String)
    (now jitter : Nat) (lockOk appendOk : Bool) : SaveResult :=
  let fe := mkFailedEvent event consumerKey error now jitter
  if !validateFailedEvent fe then
    { log := log, st := st, outcome := .droppedInvalid }
  else if payloadStringifyThrows event.payload then
    { log := log, st := st, outcome := .threw }
  else if !lockOk then
    { log := log, st := st, outcome := .droppedLockFail }
  else if !appendOk then
    { log := log, st := st, outcome := .droppedAppendFail }
  else
    { log := log ++ [QueueLine.entry fe],
      st := { st with
        failedCount := st.failedCount + 1,
        lastError := some error,
        nextDueAt := updateNextDue st.nextDueAt (now + 30000 + jitter) },
      outcome := .saved }

/-- The complete failure path of one failed forward in `processEvent`
(lines 338-355 / 367-384): consult the reliability policy; on the critical
path call `saveFailedEvent` with the event's `{type, source, payload}`,
otherwise warn-log with `log_kind = "best_effort_forward_failed"` and touch
nothing. -/
def processForwardFailure (st : DeliveryState) (log : List QueueLine)
    (ev : PlexerEvent) (consumerKey error : String)
    (now jitter : Nat) (lockOk appendOk : Bool) :
    List QueueLine × DeliveryState × FailureDisposition :=
  match disposeForwardFailure ev.type consumerKey with
  | .bestEffortWarn k => (log, st, .bestEffortWarn k)
  | .queueCritical =>
      let r := saveFailedEvent st log ev consumerKey error now jitter lockOk appendOk
      (r.log, r.st, .queueCritical)

/-! ## `initDelivery` (delivery.ts lines 90-189) -/

/-- The metrics scan (lines 159-176): count non-blank lines (`lineCount++`
precedes the `JSON.parse` try), count entries already due, track the
minimum `nextAttempt`; lines whose date is `NaN` count but contribute no
time. -/
def scanMetrics (lines : List QueueLine) (now : Nat) :
    Nat × Nat × Option Nat :=
  lines.foldl
    (fun acc l =>
      match l with
      | .blank _ => acc
      | .junk _ => (acc.1 + 1, acc.2.1, acc.2.2)
      | .entry e =>
          match e.nextAttempt with
          | none => (acc.1 + 1, acc.2.1, acc.2.2)
          | some n =>
              (acc.1 + 1,
               (if n ≤ now then acc.2.1 + 1 else acc.2.1),
               updateNextDue acc.2.2 n))
    (0, 0, none)

/-- The per-file recovery loop (lines 112-125): for each orphaned
`processing.*.jsonl`, byte-for-byte append its lines to the failed log and
unlink it; a per-file error (`fileOk name = false`) is logged and leaves
that file in place. -/
def recoverFiles (log : List QueueLine)
    (processing : List (String × List QueueLine)) (fileOk : String → Bool) :
    List QueueLine × List (String × List QueueLine) :=
  match processing with
  | [] => (log, [])
  | (name, lines) :: rest =>
      if fileOk name then recoverFiles (log ++ lines) rest fileOk
      else
        let r := recoverFiles log rest fileOk
        (r.1, (name, lines) :: r.2)

structure InitResult where
  log : List QueueLine
  processing : List (String × List QueueLine)
  st : DeliveryState

/-- `initDelivery`: crash recovery of orphaned processing files (skipped
when none exist; skipped whole when the recovery lock fails), then the
metrics scan over a locked point-in-time copy of the failed log.  When the
scan lock or the copy fails (`scanOk = false`) the loop never runs and the
counters are set from the empty scan.  The surrounding `try`/`catch` means
no error ever propagates to the caller: the function always returns a
state. -/
def initDelivery (st : DeliveryState) (log : List QueueLine)
    (processing : List (String × List QueueLine))
    (recoverLockOk : Bool) (fileOk : String → Bool) (scanOk : Bool)
    (now : Nat) : InitResult :=
  let recovered :=
    if processing.isEmpty then (log, processing)
    else if recoverLockOk then recoverFiles log processing fileOk
    else (log, processing)
  let scanned := if scanOk then scanMetrics recovered.1 now else (0, 0, none)
  { log := recovered.1, processing := recovered.2,
    st := { st with
      failedCount := scanned.1,
      retryableNowCount := scanned.2.1,
      nextDueAt := scanned.2.2 } }

/-! ## `retryFailedEvents` (delivery.ts lines 250-447) and
`batchAppendEvents` (lines 449-470) -/

/-- `min(2^retryCount * 60 * 1000, 24 * 60 * 60 * 1000)` —
the exponential backoff of lines 327-330 / 372-375. -/
def backoffMs (retryCount : Nat) : Nat :=
  min (2 ^ retryCount * 60 * 1000) (24 * 60 * 60 * 1000)

/-- Oracles for one retry attempt: `attemptNow` is the `Date.now()` sampled
at the top of the attempt lambda (line 320), `failTime` the
`new Date()` sampled when a failure is recorded (lines 337 / 371, so
`attemptNow ≤ failTime`), `jitter` the `Math.random() * 10000` draw, and
`fetch` the outcome of the POST — `none` for a 2xx response, `some msg`
for a non-2xx status or a thrown error (both land in the same `catch` with
`msg` as the message). -/
structure EntryOracle where
  attemptNow : Nat
  failTime : Nat
  jitter : Nat
  fetch : Option String

/-- The attempt lambda (lines 319-389).  Returns `none` when the entry is
delivered (dropped from the queue) and `some` of the updated survivor
otherwise. -/
def attemptEntry (consumers : List Consumer) (e : FailedEvent)
    (o : EntryOracle) : Option FailedEvent :=
  match consumers.find? (fun c => c.key == e.consumerKey) with
  | none =>
      some { e with
        retryCount := e.retryCount + 1,
        nextAttempt := some (o.attemptNow + backoffMs (e.retryCount + 1) + o.jitter),
        error := "Consumer configuration missing",
        lastAttempt := o.failTime }
  | some c =>
      match c.url with
      | none =>
          some { e with
            retryCount := e.retryCount + 1,
            nextAttempt := some (o.attemptNow + backoffMs (e.retryCount + 1) + o.jitter),
            error := "Consumer URL missing",
            lastAttempt := o.failTime }
      | some _ =>
          match o.fetch with
          | none => none
          | some msg =>
              some { e with
                retryCount := e.retryCount + 1,
                lastAttempt := o.failTime,
                nextAttempt := some (o.attemptNow + backoffMs (e.retryCount + 1) + o.jitter),
                error := msg }

/-- Per-line treatment in the streaming loop (lines 306-393): blank lines
and unparsable lines are skipped (dropped); an entry that is not yet due
(`nextAttempt > now`, including an unparsable `NaN` date) is re-queued
unchanged; a due entry is attempted. -/
def surviveLine (consumers : List Consumer) (now : Nat) (o : EntryOracle) :
    QueueLine → Option FailedEvent
  | .blank _ => none
  | .junk _ => none
  | .entry e =>
      match e.nextAttempt with
      | some n => if n ≤ now then attemptEntry consumers e o else some e
      | none => some e

/-- The survivors of one tick, in line order.  The code runs due attempts
with bounded concurrency and flushes them into `remainingEvents` in chunks
of `retryBatchSize`, which can interleave the order relative to this
sequential model; the multiset of survivors is the same and no claim
concerns survivor order. -/
def tickSurvivors (consumers : List Consumer) (lines : List QueueLine)
    (now : Nat) (oracle : Nat → EntryOracle) : List FailedEvent :=
  lines.enum.filterMap (fun il => surviveLine consumers now (oracle il.1) il.2)

/-- Metrics recomputation from the survivors (lines 422-437), with
`nowAfter` the fresh `Date.now()` of line 425. -/
def survivorMetrics (survivors : List FailedEvent) (nowAfter : Nat) :
    Nat × Option Nat :=
  survivors.foldl
    (fun acc e =>
      match e.nextAttempt with
      | none => acc
      | some n =>
          ((if n ≤ nowAfter then acc.1 + 1 else acc.1), updateNextDue acc.2 n))
    (0, none)

structure TickResult where
  log : List QueueLine
  processing : List (String × List QueueLine)
  st : DeliveryState
  unlinked : Bool

/-- One tick of `retryFailedEvents`.  `lastRetryAt` is stamped first.  If
the lock cannot be acquired the tick aborts with everything unchanged.  An
empty failed log zeroes the counters and returns.  Otherwise the failed log
is renamed to `processing.<uuid>.jsonl` (`procName`), a fresh empty log is
created, the lock is released, the lines are processed, and the survivors
are batch-appended to the new log under the lock (`appendOk`; the batch
append is skipped when there are no survivors).  Only after that append
succeeds is the processing file unlinked and are the metrics recomputed; if
the append fails the `catch` leaves the processing file in place.  The
`lastError` assignments made inside individual failed attempts race under
concurrency and are not modelled. -/
def retryTick (st : DeliveryState) (log : List QueueLine)
    (processing : List (String × List QueueLine))
    (consumers : List Consumer) (procName : String)
    (lockOk : Bool) (now : Nat) (oracle : Nat → EntryOracle)
    (appendOk : Bool) (nowAfter : Nat) : TickResult :=
  let st0 := { st with lastRetryAt := some now }
  if !lockOk then
    { log := log, processing := processing, st := st0, unlinked := false }
  else if log.isEmpty then
    { log := log, processing := processing,
      st := { st0 with failedCount := 0, retryableNowCount := 0,
                       nextDueAt := none },
      unlinked := false }
  else
    let survivors := tickSurvivors consumers log now oracle
    if !survivors.isEmpty && !appendOk then
      { log := [], processing := processing ++ [(procName, log)],
        st := st0, unlinked := false }
    else
      let m := survivorMetrics survivors nowAfter
      { log := survivors.map QueueLine.entry, processing := processing,
        st := { st0 with failedCount := survivors.length,
                         retryableNowCount := m.1, nextDueAt := m.2 },
        unlinked := true }

/-- `getDeliveryMetrics` (lines 472-483). -/
structure PlexerDeliveryReport where
  pending : Nat
  failed : Nat
  lastError : Option String
  lastRetryAt : Option Nat
  retryableNow : Nat
  nextDueAt : Option Nat
deriving Repr

def getDeliveryMetrics (st : DeliveryState) (pendingCount : Nat) :
    PlexerDeliveryReport :=
  { pending := pendingCount, failed := st.failedCount,
    lastError := st.lastError, lastRetryAt := st.lastRetryAt,
    retryableNow := st.retryableNowCount, nextDueAt := st.nextDueAt }

/-! ## Spec-side shape for refinement

The spec's §3 invariant speaks of "the three fields `\x7btype, source,
payload\x7d` in that shape".  `envelopeJson` is that object, written from
the spec's words; the theorems below compare the code's concatenated body
against its serialization. -/

def envelopeJson (type source : String) (payload : Json) : Json :=
  .obj [("type", .str type), ("source", .str source), ("payload", payload)]

/-! ## Concrete fixtures used by witnesses and counterexamples -/

def cfgW : Config :=
  { heimgeistUrl := some "http://heimgeist.local/events",
    leitstandUrl := some "http://leitstand.local/events",
    hauskiUrl := some "http://hauski.local/events",
    chronikUrl := some "http://chronik.local/events",
    heimgeistToken := none,
    leitstandToken := some "tok-l",
    hauskiToken := some "tok-h",
    chronikToken := some "tok-c" }

def evW : PlexerEvent :=
  { type := "test.event", source := "test-suite", payload := some (.json .null) }

def consumersW : List Consumer :=
  [ { key := "heimgeist", label := "Heimgeist",
      url := some "http://heimgeist.local/events", token := none,
      authKind := "x-auth" } ]

def entryW : FailedEvent :=
  { consumerKey := "heimgeist",
    event := { type := "test.event", source := "test-suite",
               payload := some (.json .null) },
    retryCount := 0, lastAttempt := 0, nextAttempt := some 0, error := "e" }

def oracleW : EntryOracle :=
  { attemptNow := 0, failTime := 20000, jitter := 0,
    fetch := some "500 Internal Server Error" }

def stW : DeliveryState :=
  { lastError := none, lastRetryAt := none, failedCount := 0,
    retryableNowCount := 0, nextDueAt := none }

/-- The survivor `attemptEntry` produces from `entryW` under `oracleW`. -/
def survivorW : FailedEvent :=
  { consumerKey := "heimgeist", event := entryW.event, retryCount := 1,
    lastAttempt := 20000, nextAttempt := some 120000,
    error := "500 Internal Server Error" }

/-- The POST the fanout issues for an undefined-payload event to the
single-consumer registry `consumersW`. -/
def postU : Post :=
  { consumerKey := "heimgeist", label := "Heimgeist",
    url := "http://heimgeist.local/events",
    headers := [("Content-Type", "application/json")],
    body := serializedEventBody "test.event" "src" "null" }

/-! ## Helper lemmas -/

theorem serializeJson_obj (fs : List (String × Json)) :
    serializeJson (.obj fs) =
      "\x7b" ++ String.intercalate ","
        (fs.map (fun kv => jsonQuote kv.1 ++ ":" ++ serializeJson kv.2)) ++
      "\x7d" := by
  rw [serializeJson]
  rw [List.attach_map_val fs (fun kv => jsonQuote kv.1 ++ ":" ++ serializeJson kv.2)]

theorem serializeJson_str (s : String) : serializeJson (.str s) = jsonQuote s := by
  rw [serializeJson]

/-- The concatenated body built in `processEvent` equals the serialization
of the spec's three-field envelope object. -/
theorem serializedEventBody_eq_envelope (t s : String) (j : Json) :
    serializedEventBody t s (serializeJson j) =
      serializeJson (envelopeJson t s j) := by
  rw [envelopeJson, serializeJson_obj]
  simp only [List.map_cons, List.map_nil, serializeJson_str]
  have hq1 : jsonQuote "type" = "\"type\"" := rfl
  have hq2 : jsonQuote "source" = "\"source\"" := rfl
  have hq3 : jsonQuote "payload" = "\"payload\"" := rfl
  rw [hq1, hq2, hq3, serializedEventBody]
  generalize jsonQuote t = X
  generalize jsonQuote s = Y
  generalize serializeJson j = Z
  apply String.ext
  simp [String.intercalate, String.intercalate.go, String.data_append]

theorem shouldForward_iff (t k : String) :
    shouldForward t k = true ↔ t ∈ BROADCAST_EVENTS ∨ k = "heimgeist" := by
  unfold shouldForward
  by_cases h : BROADCAST_EVENTS.contains t
  · simp [h, List.mem_of_elem_eq_true h]
  · have h2 : t ∉ BROADCAST_EVENTS := fun hm => h (List.elem_eq_true_of_mem hm)
    simp [h, h2]

theorem forwardPost_eq_some {t b : String} {c : Consumer} {p : Post}
    (h : forwardPost t b c = some p) :
    p.consumerKey = c.key ∧ c.url = some p.url ∧
      shouldForward t c.key = true ∧ p.body = b := by
  unfold forwardPost at h
  split at h
  · simp at h
  · next u hu =>
      by_cases hf : shouldForward t c.key
      · rw [if_pos hf] at h
        cases h
        exact ⟨rfl, hu, hf, rfl⟩
      · rw [if_neg hf] at h
        simp at h

theorem forwardPost_isSome {t b : String} {c : Consumer} :
    (forwardPost t b c).isSome = (c.url.isSome && shouldForward t c.key) := by
  unfold forwardPost
  split
  · next hu => rw [hu]; rfl
  · next u hu =>
      rw [hu]
      by_cases hf : shouldForward t c.key
      · simp [hf]
      · simp [hf]

/-- Every post produced by the fanout loop names the key of its consumer. -/
theorem mem_filterMap_forwardPost_key {t b : String}
    {consumers : List Consumer} {p : Post}
    (h : p ∈ consumers.filterMap (forwardPost t b)) :
    p.consumerKey ∈ consumers.map Consumer.key := by
  obtain ⟨c, hc, hfp⟩ := List.mem_filterMap.1 h
  obtain ⟨hk, -, -, -⟩ := forwardPost_eq_some hfp
  exact hk ▸ List.mem_map_of_mem Consumer.key hc

/-- With pairwise distinct consumer keys, the fanout loop sends exactly one
POST to a consumer with a URL that passes the policy, and none otherwise. -/
theorem countP_filterMap_forwardPost (t b : String) :
    ∀ (consumers : List Consumer),
      (consumers.map Consumer.key).Nodup →
      ∀ c ∈ consumers,
        (consumers.filterMap (forwardPost t b)).countP
            (fun p => p.consumerKey == c.key) =
          if c.url.isSome ∧ shouldForward t c.key = true then 1 else 0 := by
  intro consumers
  induction consumers with
  | nil => intro _ c hc; simp at hc
  | cons d rest ih =>
      intro hnd c hc
      have hndrest : (rest.map Consumer.key).Nodup := (List.nodup_cons.1 hnd).2
      have hdkey : d.key ∉ rest.map Consumer.key := (List.nodup_cons.1 hnd).1
      rcases List.mem_cons.1 hc with rfl | hcrest
      · have hrest0 :
            (rest.filterMap (forwardPost t b)).countP
              (fun p => p.consumerKey == c.key) = 0 := by
          rw [List.countP_eq_zero]
          intro p hp
          have := mem_filterMap_forwardPost_key hp
          simp only [beq_iff_eq]
          intro hpk
          exact hdkey (hpk ▸ this)
        cases hfp : forwardPost t b c with
        | none =>
            have hcond : ¬(c.url.isSome ∧ shouldForward t c.key = true) := by
              intro ⟨h1, h2⟩
              have : (forwardPost t b c).isSome = true := by
                rw [forwardPost_isSome, h1, h2]; rfl
              rw [hfp] at this; simp at this
            rw [List.filterMap_cons_none hfp, hrest0, if_neg hcond]
        | some p =>
            obtain ⟨hk, hu, hf, -⟩ := forwardPost_eq_some hfp
            have hcond : c.url.isSome ∧ shouldForward t c.key = true :=
              ⟨by rw [hu]; rfl, hf⟩
            rw [List.filterMap_cons_some hfp, List.countP_cons, hrest0,
              if_pos hcond]
            simp [hk]
      · have hckey : c.key ∈ rest.map Consumer.key :=
          List.mem_map_of_mem Consumer.key hcrest
        have hne : d.key ≠ c.key := fun h => hdkey (h ▸ hckey)
        cases hfp : forwardPost t b d with
        | none =>
            rw [List.filterMap_cons_none hfp]
            exact ih hndrest c hcrest
        | some p =>
            obtain ⟨hk, -, -, -⟩ := forwardPost_eq_some hfp
            rw [List.filterMap_cons_some hfp, List.countP_cons]
            have : (p.consumerKey == c.key) = false := by
              simp [hk, hne]
            rw [this]
            simpa using ih hndrest c hcrest

/-- For a serializable payload the fanout loop is reached with the
serialized body. -/
theorem processEventPosts_eq {consumers : List Consumer} {ev : PlexerEvent}
    {j : Json} (h : effectivePayload ev.payload = .json j) :
    processEventPosts consumers ev =
      consumers.filterMap
        (forwardPost ev.type
          (serializedEventBody ev.type ev.source (serializeJson j))) := by
  unfold processEventPosts
  rw [h]
  rfl

theorem effectivePayload_of_not_cyclic {p : Option PayloadVal}
    (h : p ≠ some PayloadVal.cyclic) :
    ∃ j : Json, effectivePayload p = .json j := by
  match p with
  | none => exact ⟨.null, rfl⟩
  | some (.json j) => exact ⟨j, rfl⟩
  | some .cyclic => exact absurd rfl h

/-- Inversion of the ingress: an accepted event is the normalized event,
its envelope validated and its payload serializable. -/
theorem postEvents_accepted_inv {t s : String} {p : Option PayloadVal}
    {ev : PlexerEvent} (hacc : postEvents t s p = .accepted ev) :
    ev = ⟨jsToLower (jsTrim t), jsTrim s, p⟩ ∧
    validateEventEnvelope ⟨jsToLower (jsTrim t), jsTrim s, p⟩ = true ∧
    payloadStringifyThrows p = false := by
  unfold postEvents at hacc
  by_cases h1 : validateEventEnvelope ⟨jsToLower (jsTrim t), jsTrim s, p⟩
  · by_cases h3 : payloadStringifyThrows p
    · simp only [h1, Bool.not_true] at hacc
      rw [if_neg (by simp)] at hacc
      split at hacc <;> simp [h3] at hacc
    · by_cases h2 : (jsToLower (jsTrim t)).length > MAX_STRING_LENGTH ∨
          (jsTrim s).length > MAX_STRING_LENGTH
      · simp [h1, h2, h3] at hacc
      · push_neg at h2
        simp [h1, h3, Nat.not_lt.2 h2.1, Nat.not_lt.2 h2.2] at hacc
        exact ⟨hacc.symm, h1, by simp [h3]⟩
  · simp [h1] at hacc

/-! ## Claim theorems -/

/-- Claim C1: for every accepted (hence serializable) event of type `t`,
the dispatcher POSTs exactly once to each registry consumer that has a URL
and satisfies `t ∈ BROADCAST_EVENTS ∨ key = "heimgeist"`, and POSTs to no
other consumer. -/
theorem dispatcher_posts_iff_registry_and_policy (cfg : Config)
    (ev : PlexerEvent) (hser : ev.payload ≠ some PayloadVal.cyclic) :
    (∀ c ∈ CONSUMERS cfg,
      (processEventPosts (CONSUMERS cfg) ev).countP
          (fun p => p.consumerKey == c.key) =
        if c.url.isSome ∧ (ev.type ∈ BROADCAST_EVENTS ∨ c.key = "heimgeist")
        then 1 else 0) ∧
    (∀ p ∈ processEventPosts (CONSUMERS cfg) ev,
      ∃ c ∈ CONSUMERS cfg, p.consumerKey = c.key ∧ c.url = some p.url ∧
        (ev.type ∈ BROADCAST_EVENTS ∨ c.key = "heimgeist")) := by
  obtain ⟨j, hj⟩ := effectivePayload_of_not_cyclic hser
  rw [processEventPosts_eq hj]
  have hnd : ((CONSUMERS cfg).map Consumer.key).Nodup := by
    simp [CONSUMERS]
  constructor
  · intro c hc
    rw [countP_filterMap_forwardPost _ _ (CONSUMERS cfg) hnd c hc]
    by_cases hcond : ev.type ∈ BROADCAST_EVENTS ∨ c.key = "heimgeist"
    · simp [hcond, (shouldForward_iff ev.type c.key).2 hcond]
    · have : shouldForward ev.type c.key ≠ true := by
        intro h; exact hcond ((shouldForward_iff ev.type c.key).1 h)
      simp [hcond, this]
  · intro p hp
    obtain ⟨c, hc, hfp⟩ := List.mem_filterMap.1 hp
    obtain ⟨hk, hu, hf, -⟩ := forwardPost_eq_some hfp
    exact ⟨c, hc, hk, hu, (shouldForward_iff ev.type c.key).1 hf⟩

/-- Witness for C1 at a concrete registry and event: `test.event` is not a
broadcast type, so only the critical consumer is POSTed. -/
theorem dispatcher_posts_iff_registry_and_policy_witness :
    (processEventPosts (CONSUMERS cfgW) evW).countP
        (fun p => p.consumerKey == "heimgeist") = 1 ∧
    (processEventPosts (CONSUMERS cfgW) evW).countP
        (fun p => p.consumerKey == "chronik") = 0 := by
  have h := dispatcher_posts_iff_registry_and_policy cfgW evW
    (by simp [evW])
  constructor
  · have h1 := h.1
      { key := "heimgeist", label := "Heimgeist",
        url := some "http://heimgeist.local/events", token := none,
        authKind := "x-auth" }
      (by simp [CONSUMERS, cfgW])
    simpa [evW] using h1
  · have h2 := h.1
      { key := "chronik", label := "Chronik",
        url := some "http://chronik.local/events", token := some "tok-c",
        authKind := "x-auth" }
      (by simp [CONSUMERS, cfgW])
    have hmem : ("test.event" : String) ∉ BROADCAST_EVENTS := by decide
    simpa [evW, hmem] using h2

/-- Claim C2: the body POSTed for every accepted event — by the dispatcher
and by the retry worker — is exactly the serialized three-field object
`\x7btype, source, payload\x7d` of the normalized event (type lowercased,
source trimmed, payload unchanged), with no additional top-level keys. -/
theorem forwarded_body_exact_three_fields (cfg : Config) (t s : String)
    (p : Option PayloadVal) (ev : PlexerEvent)
    (hacc : postEvents t s p = .accepted ev) :
    ∃ j : Json, ev.payload = some (.json j) ∧
      ev.type = jsToLower (jsTrim t) ∧ ev.source = jsTrim s ∧
      (∀ post ∈ processEventPosts (CONSUMERS cfg) ev,
        post.body = serializeJson (envelopeJson ev.type ev.source j)) ∧
      jsonObjKeys (envelopeJson ev.type ev.source j) =
        ["type", "source", "payload"] ∧
      (∀ (e : FailedEvent) (j2 : Json), e.event.payload = some (.json j2) →
        stringifyEvent e.event =
          some (serializeJson (envelopeJson e.event.type e.event.source j2))) := by
  obtain ⟨rfl, henv, hcyc⟩ := postEvents_accepted_inv hacc
  have hps : p.isSome := by
    simp [validateEventEnvelope] at henv
    exact henv.2
  obtain ⟨v, hv⟩ := Option.isSome_iff_exists.1 hps
  have hj : ∃ j : Json, v = .json j := by
    cases v with
    | json j => exact ⟨j, rfl⟩
    | cyclic => rw [hv] at hcyc; simp [payloadStringifyThrows] at hcyc
  obtain ⟨j, rfl⟩ := hj
  refine ⟨j, by rw [hv], rfl, rfl, ?_, rfl, ?_⟩
  · intro post hpost
    have heff : effectivePayload
        (PlexerEvent.mk (jsToLower (jsTrim t)) (jsTrim s) p).payload = .json j := by
      simp [hv, effectivePayload]
    rw [processEventPosts_eq heff] at hpost
    obtain ⟨c, -, hfp⟩ := List.mem_filterMap.1 hpost
    obtain ⟨-, -, -, hbody⟩ := forwardPost_eq_some hfp
    rw [hbody]
    exact serializedEventBody_eq_envelope _ _ j
  · intro e j2 hej
    unfold stringifyEvent
    rw [hej]
    rfl

/-- Witness for C2: a concrete ingress body is accepted, normalized and the
conclusion holds for it. -/
theorem forwarded_body_exact_three_fields_witness :
    ∃ j : Json, evW.payload = some (.json j) ∧
      evW.type = jsToLower (jsTrim "Test.Event ") ∧
      evW.source = jsTrim " test-suite " ∧
      (∀ post ∈ processEventPosts (CONSUMERS cfgW) evW,
        post.body = serializeJson (envelopeJson evW.type evW.source j)) ∧
      jsonObjKeys (envelopeJson evW.type evW.source j) =
        ["type", "source", "payload"] ∧
      (∀ (e : FailedEvent) (j2 : Json), e.event.payload = some (.json j2) →
        stringifyEvent e.event =
          some (serializeJson (envelopeJson e.event.type e.event.source j2))) :=
  forwarded_body_exact_three_fields cfgW "Test.Event " " test-suite "
    (some (.json .null)) evW (by rfl)

/-- Claim C10: an `undefined` payload is normalized to `null` before
serialization, so the forwarded body always carries a `payload` key
(`"payload":null` in that case). -/
theorem undefined_payload_forwarded_as_null (consumers : List Consumer)
    (t s : String) (post : Post)
    (hpost : post ∈ processEventPosts consumers
      { type := t, source := s, payload := none }) :
    post.body = serializeJson (envelopeJson t s .null) ∧
    "payload" ∈ jsonObjKeys (envelopeJson t s .null) := by
  have heff : effectivePayload
      (PlexerEvent.mk t s none).payload = .json .null := rfl
  rw [processEventPosts_eq heff] at hpost
  obtain ⟨c, -, hfp⟩ := List.mem_filterMap.1 hpost
  obtain ⟨-, -, -, hbody⟩ := forwardPost_eq_some hfp
  constructor
  · rw [hbody]
    exact serializedEventBody_eq_envelope t s .null
  · simp [envelopeJson, jsonObjKeys]

/-- The reliability policy never produces any warn tag other than
`best_effort_forward_failed`. -/
theorem dispose_cases (t k : String) :
    disposeForwardFailure t k = .queueCritical ∨
    disposeForwardFailure t k = .bestEffortWarn "best_effort_forward_failed" := by
  by_cases h : (BEST_EFFORT_EVENTS.contains t || !(k == "heimgeist")) = true
  · right
    unfold disposeForwardFailure
    simp only [h]
    rfl
  · left
    have hf : (BEST_EFFORT_EVENTS.contains t || !(k == "heimgeist")) = false := by
      revert h
      cases BEST_EFFORT_EVENTS.contains t || !(k == "heimgeist") <;> simp
    unfold disposeForwardFailure
    simp only [hf]
    rfl

theorem dispose_queue_iff (t k : String) :
    disposeForwardFailure t k = .queueCritical ↔
      (k = "heimgeist" ∧ t ∉ BEST_EFFORT_EVENTS) := by
  unfold disposeForwardFailure
  by_cases hb : BEST_EFFORT_EVENTS.contains t
  · have hmem := List.mem_of_elem_eq_true hb
    simp [hb, hmem]
  · have hnmem : t ∉ BEST_EFFORT_EVENTS :=
      fun hm => hb (List.elem_eq_true_of_mem hm)
    by_cases hk : k == "heimgeist"
    · simp [hb, hk, eq_of_beq hk, hnmem]
    · have : k ≠ "heimgeist" := fun h => hk (by simp [h])
      simp [hb, hk, this]

theorem payloadStringifyThrows_eq_false {p : Option PayloadVal}
    (h : p ≠ some PayloadVal.cyclic) : payloadStringifyThrows p = false := by
  match p with
  | none => rfl
  | some (.json j) => rfl
  | some .cyclic => exact absurd rfl h

/-- Claim C3: a failed forward is handed to `saveFailedEvent` — appending
exactly one line and incrementing `failed` by one — iff the consumer is the
critical `heimgeist` and the event type is not best-effort; every other
failure is warn-logged with `log_kind = "best_effort_forward_failed"` and
appends nothing. -/
theorem failed_forward_queued_iff_critical (st : DeliveryState)
    (log : List QueueLine) (ev : PlexerEvent) (key err : String)
    (now jitter : Nat)
    (hval : validateFailedEvent (mkFailedEvent ev key err now jitter) = true)
    (hser : ev.payload ≠ some PayloadVal.cyclic) :
    (((processForwardFailure st log ev key err now jitter true true).2.2 =
        .queueCritical) ↔
      (key = "heimgeist" ∧ ev.type ∉ BEST_EFFORT_EVENTS)) ∧
    ((key = "heimgeist" ∧ ev.type ∉ BEST_EFFORT_EVENTS) →
      (processForwardFailure st log ev key err now jitter true true).1 =
        log ++ [QueueLine.entry (mkFailedEvent ev key err now jitter)] ∧
      (processForwardFailure st log ev key err now jitter true true).2.1.failedCount =
        st.failedCount + 1) ∧
    (¬(key = "heimgeist" ∧ ev.type ∉ BEST_EFFORT_EVENTS) →
      (processForwardFailure st log ev key err now jitter true true).1 = log ∧
      (processForwardFailure st log ev key err now jitter true true).2.1 = st ∧
      (processForwardFailure st log ev key err now jitter true true).2.2 =
        .bestEffortWarn "best_effort_forward_failed") := by
  have hsave : saveFailedEvent st log ev key err now jitter true true =
      { log := log ++ [QueueLine.entry (mkFailedEvent ev key err now jitter)],
        st := { st with
          failedCount := st.failedCount + 1,
          lastError := some err,
          nextDueAt := updateNextDue st.nextDueAt (now + 30000 + jitter) },
        outcome := .saved } := by
    unfold saveFailedEvent
    simp [hval, payloadStringifyThrows_eq_false hser]
  by_cases hcond : key = "heimgeist" ∧ ev.type ∉ BEST_EFFORT_EVENTS
  · have hq : disposeForwardFailure ev.type key = .queueCritical :=
      (dispose_queue_iff ev.type key).2 hcond
    have hproc : processForwardFailure st log ev key err now jitter true true =
        ((saveFailedEvent st log ev key err now jitter true true).log,
         (saveFailedEvent st log ev key err now jitter true true).st,
         .queueCritical) := by
      unfold processForwardFailure
      simp only [hq]
    rw [hproc, hsave]
    exact ⟨by simp [hcond], fun _ => ⟨rfl, rfl⟩, fun hn => absurd hcond hn⟩
  · have hw : disposeForwardFailure ev.type key =
        .bestEffortWarn "best_effort_forward_failed" := by
      rcases dispose_cases ev.type key with h | h
      · exact absurd ((dispose_queue_iff ev.type key).1 h) hcond
      · exact h
    have hproc : processForwardFailure st log ev key err now jitter true true =
        (log, st, .bestEffortWarn "best_effort_forward_failed") := by
      unfold processForwardFailure
      simp only [hw]
    rw [hproc]
    exact ⟨by simp [hcond], fun hc => absurd hc hcond,
      fun _ => ⟨rfl, rfl, rfl⟩⟩

/-- Witness for C3: a critical, non-best-effort failure at concrete inputs
appends exactly one line and bumps `failed` from 0 to 1. -/
theorem failed_forward_queued_iff_critical_witness :
    (processForwardFailure stW [] evW "heimgeist" "boom" 1000 0 true true).1 =
      [QueueLine.entry (mkFailedEvent evW "heimgeist" "boom" 1000 0)] ∧
    (processForwardFailure stW [] evW "heimgeist" "boom" 1000 0 true
        true).2.1.failedCount = 1 := by
  have h := failed_forward_queued_iff_critical stW [] evW "heimgeist" "boom"
    1000 0 (by decide) (by simp [evW])
  have hc : ("heimgeist" : String) = "heimgeist" ∧
      evW.type ∉ BEST_EFFORT_EVENTS := ⟨rfl, by decide⟩
  obtain ⟨-, h2, -⟩ := h
  obtain ⟨ha, hb⟩ := h2 hc
  refine ⟨by simpa using ha, by simpa [stW] using hb⟩

/-- Claim C7: `saveFailedEvent` builds the entry with `retryCount = 0`,
`lastAttempt = now`, `nextAttempt = now + 30s + jitter` with the jitter in
`[0, 10s)`, and the supplied error; an entry failing validation is dropped
with nothing written; otherwise exactly one line is appended under the lock
and the counters are updated. -/
theorem saveFailedEvent_builds_and_appends (st : DeliveryState)
    (log : List QueueLine) (ev : PlexerEvent) (key err : String)
    (now jitter : Nat) (lockOk appendOk : Bool) (hjit : jitter < 10000) :
    (mkFailedEvent ev key err now jitter).retryCount = 0 ∧
    (mkFailedEvent ev key err now jitter).lastAttempt = now ∧
    (mkFailedEvent ev key err now jitter).nextAttempt =
      some (now + 30000 + jitter) ∧
    now + 30000 ≤ now + 30000 + jitter ∧ now + 30000 + jitter < now + 40000 ∧
    (mkFailedEvent ev key err now jitter).error = err ∧
    (validateFailedEvent (mkFailedEvent ev key err now jitter) = false →
      saveFailedEvent st log ev key err now jitter lockOk appendOk =
        { log := log, st := st, outcome := .droppedInvalid }) ∧
    (validateFailedEvent (mkFailedEvent ev key err now jitter) = true →
      ev.payload ≠ some PayloadVal.cyclic →
      saveFailedEvent st log ev key err now jitter true true =
        { log := log ++ [QueueLine.entry (mkFailedEvent ev key err now jitter)],
          st := { st with
            failedCount := st.failedCount + 1,
            lastError := some err,
            nextDueAt := updateNextDue st.nextDueAt (now + 30000 + jitter) },
          outcome := .saved }) := by
  refine ⟨rfl, rfl, rfl, by omega, by omega, rfl, ?_, ?_⟩
  · intro hval
    unfold saveFailedEvent
    simp [hval]
  · intro hval hser
    unfold saveFailedEvent
    simp [hval, payloadStringifyThrows_eq_false hser]

/-- Witness for C7 at concrete inputs (jitter 5000 ms). -/
theorem saveFailedEvent_builds_and_appends_witness :
    (mkFailedEvent evW "heimgeist" "boom" 1000 5000).retryCount = 0 ∧
    (mkFailedEvent evW "heimgeist" "boom" 1000 5000).lastAttempt = 1000 ∧
    (mkFailedEvent evW "heimgeist" "boom" 1000 5000).nextAttempt = some 36000 ∧
    (1000 + 30000 : Nat) ≤ 36000 ∧ (36000 : Nat) < 1000 + 40000 ∧
    (mkFailedEvent evW "heimgeist" "boom" 1000 5000).error = "boom" ∧
    (validateFailedEvent (mkFailedEvent evW "heimgeist" "boom" 1000 5000) = false →
      saveFailedEvent stW [] evW "heimgeist" "boom" 1000 5000 true true =
        { log := [], st := stW, outcome := .droppedInvalid }) ∧
    (validateFailedEvent (mkFailedEvent evW "heimgeist" "boom" 1000 5000) = true →
      evW.payload ≠ some PayloadVal.cyclic →
      saveFailedEvent stW [] evW "heimgeist" "boom" 1000 5000 true true =
        { log := [QueueLine.entry (mkFailedEvent evW "heimgeist" "boom" 1000 5000)],
          st := { stW with
            failedCount := stW.failedCount + 1,
            lastError := some "boom",
            nextDueAt := updateNextDue stW.nextDueAt 36000 },
          outcome := .saved }) := by
  have h := saveFailedEvent_builds_and_appends stW [] evW "heimgeist" "boom"
    1000 5000 true true (by decide)
  simpa using h

/-- Counterexample to claim C8: at a concrete lock failure the event is
dropped (`droppedLockFail`) and the drop logged, but `last_error` is NOT
updated — it stays `none` even though persisting failed, so the failure is
not reported via `last_error` as the claim states. -/
theorem save_lock_failure_not_reported_in_last_error :
    (saveFailedEvent stW [] evW "heimgeist" "boom" 1000 0 false true).outcome =
      .droppedLockFail ∧
    (saveFailedEvent stW [] evW "heimgeist" "boom" 1000 0 false true).st.lastError =
      none ∧
    (saveFailedEvent stW [] evW "heimgeist" "boom" 1000 0 false true).log = [] := by
  exact ⟨rfl, rfl, rfl⟩

/-- Amended C8: when persisting fails (lock acquisition or append), the
event is dropped rather than blocking the ingress and the drop is
error-logged, but the in-memory state — including `last_error` — is left
completely unchanged; `last_error` is only set when an append succeeds. -/
theorem persistence_failure_drops_event_state_untouched (st : DeliveryState)
    (log : List QueueLine) (ev : PlexerEvent) (key err : String)
    (now jitter : Nat) (appendOk : Bool)
    (hval : validateFailedEvent (mkFailedEvent ev key err now jitter) = true)
    (hser : ev.payload ≠ some PayloadVal.cyclic) :
    saveFailedEvent st log ev key err now jitter false appendOk =
      { log := log, st := st, outcome := .droppedLockFail } ∧
    saveFailedEvent st log ev key err now jitter true false =
      { log := log, st := st, outcome := .droppedAppendFail } := by
  constructor
  · unfold saveFailedEvent
    simp [hval, payloadStringifyThrows_eq_false hser]
  · unfold saveFailedEvent
    simp [hval, payloadStringifyThrows_eq_false hser]

/-- Witness for the amended C8 at concrete inputs. -/
theorem persistence_failure_drops_event_state_untouched_witness :
    saveFailedEvent stW [] evW "heimgeist" "boom" 1000 0 false true =
      { log := [], st := stW, outcome := .droppedLockFail } ∧
    saveFailedEvent stW [] evW "heimgeist" "boom" 1000 0 true false =
      { log := [], st := stW, outcome := .droppedAppendFail } :=
  persistence_failure_drops_event_state_untouched stW [] evW "heimgeist"
    "boom" 1000 0 true (by decide) (by simp [evW])

/-- Claim C9: when the metrics-scan lock or copy fails during
`initDelivery`, the counters are still set from the (empty) scan —
`failed = 0`, `retryable_now = 0`, `next_due_at = none` — whatever the log
contains; the function returns normally (it is total), propagating no
error. -/
theorem init_scan_failure_zeroes_counters (st : DeliveryState)
    (log : List QueueLine) (processing : List (String × List QueueLine))
    (recoverLockOk : Bool) (fileOk : String → Bool) (now : Nat) :
    (initDelivery st log processing recoverLockOk fileOk false
        now).st.failedCount = 0 ∧
    (initDelivery st log processing recoverLockOk fileOk false
        now).st.retryableNowCount = 0 ∧
    (initDelivery st log processing recoverLockOk fileOk false
        now).st.nextDueAt = none ∧
    (initDelivery st log processing recoverLockOk fileOk false
        now).st.lastError = st.lastError := by
  unfold initDelivery
  exact ⟨rfl, rfl, rfl, rfl⟩

/-- Recovery with no per-file failures appends every orphaned file's lines,
in directory order, and removes every orphan. -/
theorem recoverFiles_all_ok (fileOk : String → Bool)
    (hok : ∀ n, fileOk n = true) :
    ∀ (processing : List (String × List QueueLine)) (log : List QueueLine),
      recoverFiles log processing fileOk =
        (log ++ (processing.map (fun f => f.2)).flatten, []) := by
  intro processing
  induction processing with
  | nil => intro log; simp [recoverFiles]
  | cons hd tl ih =>
      intro log
      obtain ⟨name, lines⟩ := hd
      rw [recoverFiles, hok name]
      simp only [if_true]
      rw [ih (log ++ lines)]
      simp [List.append_assoc]

/-- Claim C4: after a clean `initDelivery`, `failed_forwards.jsonl` holds
its old lines followed by the lines of every `processing.*.jsonl` in
directory order (each line byte-preserved), no processing file remains, and
a second run of `initDelivery` — under any oracles — changes nothing. -/
theorem crash_recovery_union_and_idempotent (st : DeliveryState)
    (log : List QueueLine) (processing : List (String × List QueueLine))
    (fileOk : String → Bool) (scanOk : Bool) (now : Nat)
    (st2 : DeliveryState) (rlok2 : Bool) (fileOk2 : String → Bool)
    (scanOk2 : Bool) (now2 : Nat) (hok : ∀ n, fileOk n = true) :
    (initDelivery st log processing true fileOk scanOk now).log =
      log ++ (processing.map (fun f => f.2)).flatten ∧
    (initDelivery st log processing true fileOk scanOk now).processing = [] ∧
    (initDelivery st2
        (initDelivery st log processing true fileOk scanOk now).log
        (initDelivery st log processing true fileOk scanOk now).processing
        rlok2 fileOk2 scanOk2 now2).log =
      (initDelivery st log processing true fileOk scanOk now).log ∧
    (initDelivery st2
        (initDelivery st log processing true fileOk scanOk now).log
        (initDelivery st log processing true fileOk scanOk now).processing
        rlok2 fileOk2 scanOk2 now2).processing = [] := by
  have hrec : (initDelivery st log processing true fileOk scanOk now).log =
        log ++ (processing.map (fun f => f.2)).flatten ∧
      (initDelivery st log processing true fileOk scanOk now).processing = [] := by
    unfold initDelivery
    by_cases hp : processing.isEmpty
    · rw [List.isEmpty_iff.1 hp]
      simp
    · simp only [hp, Bool.false_eq_true, if_false, if_true,
        recoverFiles_all_ok fileOk hok processing log]
      exact ⟨trivial, trivial⟩
  refine ⟨hrec.1, hrec.2, ?_, ?_⟩
  · rw [hrec.2]
    unfold initDelivery
    simp
  · rw [hrec.2]
    unfold initDelivery
    simp

/-- Witness for C4: one old line plus two orphaned processing files at
concrete contents. -/
theorem crash_recovery_union_and_idempotent_witness :
    (initDelivery stW [QueueLine.junk "x"]
        [("processing.a.jsonl", [QueueLine.entry entryW]),
         ("processing.b.jsonl", [QueueLine.blank ""])]
        true (fun _ => true) true 0).log =
      [QueueLine.junk "x"] ++
        ([("processing.a.jsonl", [QueueLine.entry entryW]),
          ("processing.b.jsonl", [QueueLine.blank ""])].map
            (fun f => f.2)).flatten ∧
    (initDelivery stW [QueueLine.junk "x"]
        [("processing.a.jsonl", [QueueLine.entry entryW]),
         ("processing.b.jsonl", [QueueLine.blank ""])]
        true (fun _ => true) true 0).processing = [] ∧
    (initDelivery stW
        (initDelivery stW [QueueLine.junk "x"]
            [("processing.a.jsonl", [QueueLine.entry entryW]),
             ("processing.b.jsonl", [QueueLine.blank ""])]
            true (fun _ => true) true 0).log
        (initDelivery stW [QueueLine.junk "x"]
            [("processing.a.jsonl", [QueueLine.entry entryW]),
             ("processing.b.jsonl", [QueueLine.blank ""])]
            true (fun _ => true) true 0).processing
        false (fun _ => false) false 1).log =
      (initDelivery stW [QueueLine.junk "x"]
          [("processing.a.jsonl", [QueueLine.entry entryW]),
           ("processing.b.jsonl", [QueueLine.blank ""])]
          true (fun _ => true) true 0).log ∧
    (initDelivery stW
        (initDelivery stW [QueueLine.junk "x"]
            [("processing.a.jsonl", [QueueLine.entry entryW]),
             ("processing.b.jsonl", [QueueLine.blank ""])]
            true (fun _ => true) true 0).log
        (initDelivery stW [QueueLine.junk "x"]
            [("processing.a.jsonl", [QueueLine.entry entryW]),
             ("processing.b.jsonl", [QueueLine.blank ""])]
            true (fun _ => true) true 0).processing
        false (fun _ => false) false 1).processing = [] :=
  crash_recovery_union_and_idempotent stW [QueueLine.junk "x"]
    [("processing.a.jsonl", [QueueLine.entry entryW]),
     ("processing.b.jsonl", [QueueLine.blank ""])]
    (fun _ => true) true 0 stW false (fun _ => false) false 1
    (fun _ => rfl)

/-- Claim C5: in a tick that reaches processing, the processing file is
unlinked only when the survivors have been durably appended (the new log
then holds exactly the survivor lines); if the survivor append fails the
file is not unlinked — it remains, holding every original line — and the
cycle aborts with the counters untouched. -/
theorem retry_tick_unlink_only_after_append (st : DeliveryState)
    (log : List QueueLine) (processing : List (String × List QueueLine))
    (consumers : List Consumer) (procName : String) (now : Nat)
    (oracle : Nat → EntryOracle) (appendOk : Bool) (nowAfter : Nat)
    (hlog : log ≠ []) :
    ((retryTick st log processing consumers procName true now oracle appendOk
        nowAfter).unlinked = true →
      (retryTick st log processing consumers procName true now oracle appendOk
          nowAfter).log =
        (tickSurvivors consumers log now oracle).map QueueLine.entry) ∧
    (appendOk = false → tickSurvivors consumers log now oracle ≠ [] →
      (retryTick st log processing consumers procName true now oracle appendOk
          nowAfter).unlinked = false ∧
      (procName, log) ∈
        (retryTick st log processing consumers procName true now oracle
            appendOk nowAfter).processing ∧
      (retryTick st log processing consumers procName true now oracle appendOk
          nowAfter).log = [] ∧
      (retryTick st log processing consumers procName true now oracle appendOk
          nowAfter).st = { st with lastRetryAt := some now }) := by
  have hemp : log.isEmpty = false := List.isEmpty_eq_false.2 hlog
  constructor
  · intro hu
    by_cases hs : (tickSurvivors consumers log now oracle).isEmpty = true
    · simp [retryTick, hemp, hs]
    · by_cases ha : appendOk = true
      · simp [retryTick, hemp, hs, ha]
      · have ha2 : appendOk = false := by revert ha; cases appendOk <;> simp
        have hs2 : (tickSurvivors consumers log now oracle).isEmpty = false := by
          revert hs; cases (tickSurvivors consumers log now oracle).isEmpty <;> simp
        exfalso
        simp [retryTick, hemp, hs2, ha2] at hu
  · intro ha hne
    have hs : (tickSurvivors consumers log now oracle).isEmpty = false :=
      List.isEmpty_eq_false.2 hne
    refine ⟨?_, ?_, ?_, ?_⟩ <;> simp [retryTick, hemp, hs, ha]

/-- Witness for C5: a failed survivor append at concrete inputs leaves the
processing file (with the original line) in place. -/
theorem retry_tick_unlink_only_after_append_witness :
    (retryTick stW [QueueLine.entry entryW] [] consumersW
        "processing.w.jsonl" true 0 (fun _ => oracleW) false 0).unlinked =
      false ∧
    ("processing.w.jsonl", [QueueLine.entry entryW]) ∈
      (retryTick stW [QueueLine.entry entryW] [] consumersW
          "processing.w.jsonl" true 0 (fun _ => oracleW) false 0).processing ∧
    (retryTick stW [QueueLine.entry entryW] [] consumersW
        "processing.w.jsonl" true 0 (fun _ => oracleW) false 0).log = [] ∧
    (retryTick stW [QueueLine.entry entryW] [] consumersW
        "processing.w.jsonl" true 0 (fun _ => oracleW) false 0).st =
      { stW with lastRetryAt := some 0 } := by
  have hlen :
      (tickSurvivors consumersW [QueueLine.entry entryW] 0
          (fun _ => oracleW)).length = 1 := rfl
  have hne : tickSurvivors consumersW [QueueLine.entry entryW] 0
      (fun _ => oracleW) ≠ [] := by
    intro h
    rw [h] at hlen
    exact absurd hlen (by decide)
  exact (retry_tick_unlink_only_after_append stW [QueueLine.entry entryW] []
    consumersW "processing.w.jsonl" 0 (fun _ => oracleW) false 0
    (by simp)).2 rfl hne

/-- Counterexample to claim C6: at a concrete failed attempt that took 20 s
(`attemptNow = 0`, failure recorded at `lastAttempt = 20000`, jitter 0) the
survivor has `retryCount = 1` and `nextAttempt = 120000`, so
`nextAttempt − lastAttempt = 100000 < 120000 = min(2^1·60s, 24h)`: the
claimed lower bound on `nextAttempt − lastAttempt` fails. -/
theorem backoff_vs_lastAttempt_counterexample :
    ((attemptEntry consumersW entryW oracleW).map
        (fun e => (e.retryCount, e.lastAttempt, e.nextAttempt))) =
      some (1, 20000, some 120000) ∧
    (120000 : Nat) - 20000 < backoffMs 1 := by
  exact ⟨rfl, by decide⟩

/-- Amended C6: a queue entry's `retryCount` is non-decreasing and bumped by
exactly 1 on each failed attempt; the failed attempt schedules
`nextAttempt = attemptStart + min(2^retryCount·60s, 24h) + jitter`, so
`nextAttempt − attemptStart` is at least the backoff; the claimed bound
against `lastAttempt` holds only when the failure is recorded no later than
`attemptStart + jitter` (the failing attempt finishes within the jitter). -/
theorem retry_backoff_bump_and_schedule (consumers : List Consumer)
    (e : FailedEvent) (o : EntryOracle) :
    (∀ (now : Nat) (e3 : FailedEvent),
      surviveLine consumers now o (.entry e) = some e3 →
      e.retryCount ≤ e3.retryCount) ∧
    (∀ e2 : FailedEvent, attemptEntry consumers e o = some e2 →
      e2.retryCount = e.retryCount + 1 ∧
      e2.lastAttempt = o.failTime ∧
      e2.nextAttempt =
        some (o.attemptNow + backoffMs e2.retryCount + o.jitter) ∧
      o.attemptNow + backoffMs e2.retryCount + o.jitter - o.attemptNow ≥
        backoffMs e2.retryCount ∧
      (o.failTime ≤ o.attemptNow + o.jitter →
        o.attemptNow + backoffMs e2.retryCount + o.jitter - e2.lastAttempt ≥
          backoffMs e2.retryCount)) := by
  have hb : ∀ e2 : FailedEvent, attemptEntry consumers e o = some e2 →
      e2.retryCount = e.retryCount + 1 ∧
      e2.lastAttempt = o.failTime ∧
      e2.nextAttempt =
        some (o.attemptNow + backoffMs e2.retryCount + o.jitter) ∧
      o.attemptNow + backoffMs e2.retryCount + o.jitter - o.attemptNow ≥
        backoffMs e2.retryCount ∧
      (o.failTime ≤ o.attemptNow + o.jitter →
        o.attemptNow + backoffMs e2.retryCount + o.jitter - e2.lastAttempt ≥
          backoffMs e2.retryCount) := by
    intro e2 h
    unfold attemptEntry at h
    split at h
    · cases h
      refine ⟨rfl, rfl, rfl, by omega, fun hft => by simp only []; omega⟩
    · split at h
      · cases h
        refine ⟨rfl, rfl, rfl, by omega, fun hft => by simp only []; omega⟩
      · split at h
        · simp at h
        · cases h
          refine ⟨rfl, rfl, rfl, by omega, fun hft => by simp only []; omega⟩
  refine ⟨?_, hb⟩
  intro now e3 h
  simp only [surviveLine] at h
  split at h
  · split at h
    · exact (hb e3 h).1 ▸ Nat.le_succ e.retryCount
    · cases h
      exact Nat.le_refl _
  · cases h
    exact Nat.le_refl _

/-- Witness for the amended C6 at the concrete failed attempt. -/
theorem retry_backoff_bump_and_schedule_witness :
    survivorW.retryCount = entryW.retryCount + 1 ∧
    survivorW.lastAttempt = oracleW.failTime ∧
    survivorW.nextAttempt =
      some (oracleW.attemptNow + backoffMs survivorW.retryCount +
        oracleW.jitter) ∧
    oracleW.attemptNow + backoffMs survivorW.retryCount + oracleW.jitter -
        oracleW.attemptNow ≥ backoffMs survivorW.retryCount ∧
    (oracleW.failTime ≤ oracleW.attemptNow + oracleW.jitter →
      oracleW.attemptNow + backoffMs survivorW.retryCount + oracleW.jitter -
          survivorW.lastAttempt ≥ backoffMs survivorW.retryCount) :=
  (retry_backoff_bump_and_schedule consumersW entryW oracleW).2 survivorW rfl

/-- Witness for C10: the concrete undefined-payload event is forwarded with
body `\x7b"type":…,"source":…,"payload":null\x7d`. -/
theorem undefined_payload_forwarded_as_null_witness :
    postU.body = serializeJson (envelopeJson "test.event" "src" .null) ∧
    "payload" ∈ jsonObjKeys (envelopeJson "test.event" "src" .null) := by
  have hm : postU ∈ processEventPosts consumersW
      { type := "test.event", source := "src", payload := none } := by
    have hlist : processEventPosts consumersW
        { type := "test.event", source := "src", payload := none } = [postU] := by
      unfold processEventPosts
      have : tryJson (effectivePayload none) = some "null" := by
        simp [effectivePayload, tryJson, serializeJson]
      rw [this]
      rfl
    rw [hlist]
    exact List.mem_singleton.2 rfl
  exact undefined_payload_forwarded_as_null consumersW "test.event" "src"
    postU hm

end Plexer
